import Mathlib

/-!
Verification of the MCPGoogleTasks repository core: the right-to-left (RTL)
terminal formatter, the recursive structural formatter, the tool registry with
its read-only policy filter, the two transport dispatchers (stdio and HTTP),
and the lazily initialized client handle.

Strings are modelled as lists of UTF-16 code units (natural numbers), matching
the JavaScript string representation that the source operates on: the method
chain split / reverse / join works on code units, and the RTL detection regex
ranges all lie inside the basic multilingual plane, outside the surrogate
range, so a regex match exists exactly when some code unit lies in a range.
-/

/-- A JavaScript string: its sequence of UTF-16 code units. -/
abbrev JSString := List Nat

namespace MCPGoogleTasks

/-- One code unit falls in the RTL detection ranges of the source regex
in utils.ts: Hebrew 0590-05FF, Arabic 0600-06FF, Arabic Supplement 0750-077F,
Arabic Presentation Forms-A FB50-FDFF, Arabic Presentation Forms-B FE70-FEFF. -/
def isRTLCodeUnit (c : Nat) : Bool :=
  (0x0590 ≤ c && c ≤ 0x05FF) || (0x0600 ≤ c && c ≤ 0x06FF) ||
  (0x0750 ≤ c && c ≤ 0x077F) || (0xFB50 ≤ c && c ≤ 0xFDFF) ||
  (0xFE70 ≤ c && c ≤ 0xFEFF)

/-- The RTL presence test of utils.ts: the regex
[֐-׿؀-ۿݐ-ݿﭐ-﷿ﹰ-﻿]
matches the string, i.e. some code unit is in one of the ranges. -/
def hasRTL (t : JSString) : Bool := t.any isRTLCodeUnit

/-- formatForTerminal as defined in src/utils.ts (the plain code-unit
variant): empty or absent input gives the empty string; input containing an
RTL code unit is reversed code unit by code unit, via
text.split(&quot;&quot;).reverse().join(&quot;&quot;); any other input is
returned unchanged. Absent input (null or undefined) is Option.none. -/
def formatForTerminal (text : Option JSString) : JSString :=
  match text with
  | none => []
  | some t =>
    if t.isEmpty then []
    else if hasRTL t then t.reverse
    else t

/-- formatForTerminal in its grapheme-aware variant (the utils.ts revision
documented in RTL_SUPPORT.md, on the branch where Intl.Segmenter is
available): the string is segmented into grapheme clusters, the list of
clusters is reversed, and the clusters are concatenated. The platform
grapheme segmenter is abstracted as the parameter seg; the faithfulness
hypothesis (the segments of a string concatenate back to the string) is
stated where needed. -/
def formatForTerminalSeg (seg : JSString → List JSString)
    (text : Option JSString) : JSString :=
  match text with
  | none => []
  | some t =>
    if t.isEmpty then []
    else if hasRTL t then ((seg t).reverse).flatten
    else t

/-- A JavaScript value as handled by formatJsonForTerminal: null, undefined,
booleans, numbers (integral model), strings, arrays, and plain objects
(association list of key and value, preserving insertion order as
Object.entries does). -/
inductive JValue where
  | jnull : JValue
  | jundef : JValue
  | jbool : Bool → JValue
  | jnum : Int → JValue
  | jstr : JSString → JValue
  | jarr : List JValue → JValue
  | jobj : List (String × JValue) → JValue

/-- JavaScript falsiness on the modelled values, as tested by the guard
if (!data) in formatJsonForTerminal: null, undefined, false, 0 and the empty
string are falsy; arrays and objects never are. -/
def jsFalsy : JValue → Bool
  | .jnull => true
  | .jundef => true
  | .jbool b => !b
  | .jnum n => n == 0
  | .jstr s => s.isEmpty
  | .jarr _ => false
  | .jobj _ => false

/-- The typeof value === &quot;object&quot; test of formatJsonForTerminal:
true for null, arrays and objects, false for undefined, booleans, numbers
and strings. -/
def jsTypeofObject : JValue → Bool
  | .jnull => true
  | .jarr _ => true
  | .jobj _ => true
  | _ => false

/-- The typeof value === &quot;string&quot; test of formatJsonForTerminal. -/
def jsTypeofString : JValue → Bool
  | .jstr _ => true
  | _ => false

mutual

/-- formatJsonForTerminal from src/utils.ts: falsy data returned as is;
arrays mapped element-wise; objects rebuilt entry by entry, where a string
value under a key listed in rtlFields is passed through formatForTerminal,
any value of object type is recursed into, and every other value is copied;
any other value returned as is. -/
def formatJsonForTerminal (rtlFields : List String) : JValue → JValue
  | .jarr xs =>
    if jsFalsy (.jarr xs) then .jarr xs
    else .jarr (formatJsonList rtlFields xs)
  | .jobj fs =>
    if jsFalsy (.jobj fs) then .jobj fs
    else .jobj (formatJsonEntries rtlFields fs)
  | v => v
termination_by v => (sizeOf v, 0)

/-- The data.map(item =&gt; formatJsonForTerminal(item, rtlFields)) branch. -/
def formatJsonList (rtlFields : List String) : List JValue → List JValue
  | [] => []
  | x :: xs => formatJsonForTerminal rtlFields x :: formatJsonList rtlFields xs
termination_by xs => (sizeOf xs, 0)

/-- The Object.entries loop of formatJsonForTerminal. -/
def formatJsonEntries (rtlFields : List String) :
    List (String × JValue) → List (String × JValue)
  | [] => []
  | (k, v) :: fs =>
    (k, formatJsonEntry rtlFields k v) :: formatJsonEntries rtlFields fs
termination_by fs => (sizeOf fs, 0)

/-- The body of the Object.entries loop for a single key and value. -/
def formatJsonEntry (rtlFields : List String) (k : String) : JValue → JValue
  | v =>
    if rtlFields.contains k && jsTypeofString v then
      match v with
      | .jstr s => .jstr (formatForTerminal (some s))
      | w => w
    else if jsTypeofObject v then formatJsonForTerminal rtlFields v
    else v
termination_by v => (sizeOf v, 1)

end

/-- One property of a tool input schema: its name and declared JSON type.
The per-property description strings and the showCompleted default are
presentation details elided from the model; both catalogs in the source agree
on them as well. -/
structure PropSchema where
  propName : String
  propType : String
deriving DecidableEq, Repr

/-- The ToolDefinition shape of src/mcp/tool-definitions.ts: name,
description, and the input schema reduced to its property list and its
optional required list (absent in the source for the tools that take no
arguments). -/
structure ToolDefinition where
  name : String
  description : String
  properties : List PropSchema
  required : Option (List String)
deriving DecidableEq, Repr

/-- TOOL_DEFINITIONS from src/mcp/tool-definitions.ts, in source order. -/
def TOOL_DEFINITIONS : List ToolDefinition :=
  [ { name := "list_task_lists",
      description := "List all Google Tasks task lists",
      properties := [], required := none },
    { name := "create_task_list",
      description := "Create a new task list",
      properties := [⟨"title", "string"⟩],
      required := some ["title"] },
    { name := "list_tasks",
      description := "List tasks in a specific task list",
      properties := [⟨"taskListId", "string"⟩, ⟨"showCompleted", "boolean"⟩],
      required := some ["taskListId"] },
    { name := "create_task",
      description := "Create a new task in a task list",
      properties := [⟨"taskListId", "string"⟩, ⟨"title", "string"⟩,
        ⟨"notes", "string"⟩, ⟨"due", "string"⟩],
      required := some ["taskListId", "title"] },
    { name := "update_task",
      description := "Update an existing task",
      properties := [⟨"taskListId", "string"⟩, ⟨"taskId", "string"⟩,
        ⟨"title", "string"⟩, ⟨"notes", "string"⟩, ⟨"status", "string"⟩,
        ⟨"due", "string"⟩],
      required := some ["taskListId", "taskId"] },
    { name := "delete_task",
      description := "Delete a task",
      properties := [⟨"taskListId", "string"⟩, ⟨"taskId", "string"⟩],
      required := some ["taskListId", "taskId"] },
    { name := "get_auth_url",
      description := "Get OAuth2 authorization URL for Google Tasks authentication",
      properties := [], required := none } ]

/-- READ_ONLY_TOOLS from src/mcp/tool-definitions.ts (a Set in the source;
modelled as a list queried by membership). -/
def READ_ONLY_TOOLS : List String :=
  ["list_task_lists", "list_tasks", "get_auth_url"]

/-- MUTATING_TOOLS from src/mcp/tool-definitions.ts. -/
def MUTATING_TOOLS : List String :=
  ["create_task_list", "create_task", "update_task", "delete_task"]

/-- getAvailableTools of GoogleTasksHTTPServer: under READ_ONLY the catalog
is filtered to the tools whose name is in READ_ONLY_TOOLS, otherwise the
full catalog is returned. -/
def getAvailableTools (readOnly : Bool) : List ToolDefinition :=
  if readOnly then
    TOOL_DEFINITIONS.filter (fun tool => READ_ONLY_TOOLS.contains tool.name)
  else TOOL_DEFINITIONS

/-- The tool list served by the stdio server (GoogleTasksMCPServer in
src/index.ts) for ListTools requests, written inline there; the stdio
server applies no policy filter. Transcribed from src/index.ts. -/
def stdioToolCatalog : List ToolDefinition :=
  [ { name := "list_task_lists",
      description := "List all Google Tasks task lists",
      properties := [], required := none },
    { name := "create_task_list",
      description := "Create a new task list",
      properties := [⟨"title", "string"⟩],
      required := some ["title"] },
    { name := "list_tasks",
      description := "List tasks in a specific task list",
      properties := [⟨"taskListId", "string"⟩, ⟨"showCompleted", "boolean"⟩],
      required := some ["taskListId"] },
    { name := "create_task",
      description := "Create a new task in a task list",
      properties := [⟨"taskListId", "string"⟩, ⟨"title", "string"⟩,
        ⟨"notes", "string"⟩, ⟨"due", "string"⟩],
      required := some ["taskListId", "title"] },
    { name := "update_task",
      description := "Update an existing task",
      properties := [⟨"taskListId", "string"⟩, ⟨"taskId", "string"⟩,
        ⟨"title", "string"⟩, ⟨"notes", "string"⟩, ⟨"status", "string"⟩,
        ⟨"due", "string"⟩],
      required := some ["taskListId", "taskId"] },
    { name := "delete_task",
      description := "Delete a task",
      properties := [⟨"taskListId", "string"⟩, ⟨"taskId", "string"⟩],
      required := some ["taskListId", "taskId"] },
    { name := "get_auth_url",
      description := "Get OAuth2 authorization URL for Google Tasks authentication",
      properties := [], required := none } ]

/-- The argument bag of a CallTool request, restricted to the fields the
two dispatch switches read. A field absent from the request (undefined in
JavaScript) is none; the dispatchers forward absent fields unchanged, so
Option carries through to the client action. -/
structure ToolArgs where
  taskListId : Option String := none
  title : Option String := none
  notes : Option String := none
  due : Option String := none
  taskId : Option String := none
  status : Option String := none
  showCompleted : Option Bool := none
deriving DecidableEq, Repr

/-- An invocation of the GoogleTasksClient collaborator, recording exactly
the argument values the dispatcher passed (none = undefined). -/
inductive ClientAction where
  | listTaskLists
  | listTasks (taskListId : Option String) (showCompleted : Option Bool)
  | createTaskList (title : Option String)
  | createTask (taskListId title notes due : Option String)
  | updateTask (taskListId taskId title notes status due : Option String)
  | deleteTask (taskListId taskId : Option String)
deriving DecidableEq, Repr

/-- The McpError codes the two servers raise. InvalidRequest is the code of
the read-only policy denial, MethodNotFound of the unknown-tool default
case, InternalError of the catch-all wrapper. -/
inductive McpErrorCode where
  | invalidRequest
  | methodNotFound
  | internalError
deriving DecidableEq, Repr

/-- Outcome of one CallTool request: either the text content of the reply,
or a raised McpError with its code and message. -/
inductive CallToolResult where
  | success (text : String)
  | mcpError (code : McpErrorCode) (message : String)
deriving DecidableEq, Repr

/-- Observable effect of dispatching one request: the reply, the number of
initializeClient invocations performed for this request (0 or 1; the code
of initializeClient itself is modelled separately for the laziness claims),
and the client actions invoked, in order. -/
structure DispatchOutcome where
  result : CallToolResult
  clientCalls : Nat
  actions : List ClientAction
deriving DecidableEq, Repr

/-- The policy denial message of the HTTP server, from src/http-server.ts:
Tool (quoted name) is not available in read-only mode. Set READ_ONLY=false
to enable write operations. -/
def readOnlyDenialMessage (name : String) : String :=
  "Tool \x27" ++ name ++
    "\x27 is not available in read-only mode. Set READ_ONLY=false to enable write operations."

/-- The get_auth_url reply text common to both servers. -/
def authUrlMessage (authUrl : String) : String :=
  "Please visit this URL to authorize the application:\n\n" ++ authUrl

/-- The switch over tool names shared verbatim by both servers (src/index.ts
and the HTTP server): each known tool calls the corresponding client action
and replies with the serialized response (abstracted by the oracle exec),
delete_task with a fixed text; an unknown name raises
McpError MethodNotFound. The switch runs only after initializeClient. -/
def runToolSwitch (exec : ClientAction → String) (name : String)
    (args : ToolArgs) : CallToolResult × List ClientAction :=
  if name == "list_task_lists" then
    (.success (exec .listTaskLists), [.listTaskLists])
  else if name == "create_task_list" then
    let a := ClientAction.createTaskList args.title
    (.success (exec a), [a])
  else if name == "list_tasks" then
    let a := ClientAction.listTasks args.taskListId args.showCompleted
    (.success (exec a), [a])
  else if name == "create_task" then
    let a := ClientAction.createTask args.taskListId args.title args.notes args.due
    (.success (exec a), [a])
  else if name == "update_task" then
    let a := ClientAction.updateTask args.taskListId args.taskId args.title
      args.notes args.status args.due
    (.success (exec a), [a])
  else if name == "delete_task" then
    let a := ClientAction.deleteTask args.taskListId args.taskId
    (.success "Task deleted successfully", [a])
  else
    (.mcpError .methodNotFound ("Unknown tool: " ++ name), [])

/-- The CallTool handler of GoogleTasksHTTPServer (setupToolHandlers in
src/http-server.ts): first the read-only policy check against
MUTATING_TOOLS, then the get_auth_url special case (no client needed), then
initializeClient, then the tool switch. -/
def httpDispatch (authUrl : String) (exec : ClientAction → String)
    (readOnly : Bool) (name : String) (args : ToolArgs) : DispatchOutcome :=
  if readOnly && MUTATING_TOOLS.contains name then
    { result := .mcpError .invalidRequest (readOnlyDenialMessage name),
      clientCalls := 0, actions := [] }
  else if name == "get_auth_url" then
    { result := .success (authUrlMessage authUrl),
      clientCalls := 0, actions := [] }
  else
    let (r, acts) := runToolSwitch exec name args
    { result := r, clientCalls := 1, actions := acts }

/-- The CallTool handler of GoogleTasksMCPServer (setupToolHandlers in
src/index.ts): the get_auth_url special case, then initializeClient, then
the tool switch. The stdio server has no policy parameter at all: it never
reads READ_ONLY. -/
def stdioDispatch (authUrl : String) (exec : ClientAction → String)
    (name : String) (args : ToolArgs) : DispatchOutcome :=
  if name == "get_auth_url" then
    { result := .success (authUrlMessage authUrl),
      clientCalls := 0, actions := [] }
  else
    let (r, acts) := runToolSwitch exec name args
    { result := r, clientCalls := 1, actions := acts }

/-!
Model of initializeClient (identical in src/index.ts and the HTTP server):

    if (!this.tasksClient) {
      const authClient = await this.authManager.getAuthClient();
      this.tasksClient = new GoogleTasksClient(authClient);
    }
    return this.tasksClient;

The JavaScript event loop runs each synchronous segment atomically; an
await suspends the call and lets other calls interleave. A call to
initializeClient therefore has two atomic segments: from entry through the
cache check up to the await of getAuthClient, and from the resumption of
that await through the construction and store of the GoogleTasksClient.
Handles are identified by construction order. -/

/-- Shared state of the lazy client cache: the cached handle (tasksClient,
none until first construction) and how many times the construction path
(getAuthClient followed by new GoogleTasksClient) has run. -/
structure ClientCacheState where
  cache : Option Nat
  constructions : Nat
deriving DecidableEq, Repr

/-- The cache state at process start: tasksClient = null. -/
def initialCacheState : ClientCacheState := { cache := none, constructions := 0 }

/-- Progress of one call to initializeClient. -/
inductive InitPhase where
  | ready
  | awaitingAuth
  | done (handle : Nat)
deriving DecidableEq, Repr

/-- One atomic segment of one call: from ready, a cache hit returns the
cached handle and a cache miss suspends at await getAuthClient; from the
suspension, the call constructs a fresh handle, stores it, and returns it;
a finished call does nothing. -/
def initStep (s : ClientCacheState) : InitPhase → ClientCacheState × InitPhase
  | .ready =>
    match s.cache with
    | some h => (s, .done h)
    | none => (s, .awaitingAuth)
  | .awaitingAuth =>
    let h := s.constructions
    ({ cache := some h, constructions := s.constructions + 1 }, .done h)
  | .done h => (s, .done h)

/-- Run a schedule (a list of call indices, each entry advancing that call
by one atomic segment) over the shared cache state and the phases of the
concurrent calls. Out-of-range indices are skipped. -/
def runInitSchedule : List Nat → ClientCacheState → List InitPhase →
    ClientCacheState × List InitPhase
  | [], s, ps => (s, ps)
  | i :: rest, s, ps =>
    match ps[i]? with
    | none => runInitSchedule rest s ps
    | some p =>
      let (s', p') := initStep s p
      runInitSchedule rest s' (ps.set i p')

/-! Theorems. -/

/-- Reversal preserves the RTL presence test: both sides hold exactly when
some code unit is in the RTL ranges. -/
theorem hasRTL_reverse (t : JSString) : hasRTL t.reverse = hasRTL t := by
  simp [hasRTL, List.any_eq_true]

/-- If the RTL presence test succeeds, the string is nonempty. -/
theorem hasRTL_ne_nil {t : JSString} (h : hasRTL t = true) : t ≠ [] := by
  intro he
  subst he
  simp [hasRTL] at h

/-- Claim C9: formatForTerminal is the identity on every string with no code unit
in the RTL ranges (in both the plain and the grapheme-aware variant), and
maps absent (null or undefined) and empty input to the empty string without
failing. -/
theorem formatForTerminal_nonRTL_id (t : JSString)
    (seg : JSString → List JSString) (h : hasRTL t = false) :
    formatForTerminal (some t) = t ∧
    formatForTerminalSeg seg (some t) = t ∧
    formatForTerminal none = [] ∧
    formatForTerminal (some []) = [] ∧
    formatForTerminalSeg seg none = [] ∧
    formatForTerminalSeg seg (some []) = [] := by
  refine ⟨?_, ?_, rfl, rfl, rfl, rfl⟩ <;>
  · by_cases he : t.isEmpty
    · simp_all [formatForTerminal, formatForTerminalSeg, List.isEmpty_iff]
    · simp [formatForTerminal, formatForTerminalSeg, he, h]

/-- Witness for C9 on the concrete string Hello. -/
theorem formatForTerminal_nonRTL_id_witness :
    hasRTL [72, 101, 108, 108, 111] = false ∧
    formatForTerminal (some [72, 101, 108, 108, 111]) =
      [72, 101, 108, 108, 111] ∧
    formatForTerminal none = [] := by
  have h := formatForTerminal_nonRTL_id [72, 101, 108, 108, 111]
    (fun s => [s]) (by decide)
  exact ⟨by decide, h.1, h.2.2.1⟩

/-- Claim C10: the plain code-unit formatForTerminal of src/utils.ts is an
involution on every string (viewed as its UTF-16 code-unit sequence), with
no precondition: reversal preserves the multiset of code units, so the RTL
presence test answers the same on the output as on the input, and a second
application undoes the first. -/
theorem formatForTerminal_involution (t : JSString) :
    formatForTerminal (some (formatForTerminal (some t))) = t := by
  by_cases he : t.isEmpty
  · simp_all [formatForTerminal, List.isEmpty_iff]
  · by_cases hr : hasRTL t
    · have h1 : formatForTerminal (some t) = t.reverse := by
        simp [formatForTerminal, he, hr]
      have he2 : t.reverse.isEmpty = false := by
        simp_all [List.isEmpty_iff]
      rw [h1]
      simp [formatForTerminal, he2, hasRTL_reverse, hr]
    · have h1 : formatForTerminal (some t) = t := by
        simp [formatForTerminal, he, hr]
      rw [h1]
      simp [formatForTerminal, he, hr]

/-- Claim C1: on every input classified as containing RTL content, the
grapheme-aware formatForTerminal (the Intl.Segmenter branch of utils.ts)
returns exactly the concatenation of the reversed list of grapheme
clusters, leaving the inside of each cluster untouched, so every cluster of
the input (multi-codepoint emoji, base plus combining marks, surrogate
pair) occurs verbatim as a contiguous substring of the output. The
platform segmenter is abstract here, assumed only to split the string into
clusters whose concatenation is the string. -/
theorem formatForTerminalSeg_graphemes (seg : JSString → List JSString)
    (t : JSString) (hseg : (seg t).flatten = t) (hrtl : hasRTL t = true) :
    formatForTerminalSeg seg (some t) = ((seg t).reverse).flatten ∧
    (∀ c ∈ seg t, ∃ pre post,
      formatForTerminalSeg seg (some t) = pre ++ c ++ post) ∧
    (∀ c ∈ seg t, ∃ pre post, t = pre ++ c ++ post) := by
  have hne : t ≠ [] := hasRTL_ne_nil hrtl
  have he : t.isEmpty = false := by simp_all [List.isEmpty_iff]
  have hout : formatForTerminalSeg seg (some t) = ((seg t).reverse).flatten := by
    simp [formatForTerminalSeg, he, hrtl]
  refine ⟨hout, ?_, ?_⟩
  · intro c hc
    have hc' : c ∈ (seg t).reverse := List.mem_reverse.mpr hc
    obtain ⟨l₁, l₂, hsplit⟩ := List.append_of_mem hc'
    refine ⟨l₁.flatten, l₂.flatten, ?_⟩
    rw [hout, hsplit]
    simp
  · intro c hc
    obtain ⟨l₁, l₂, hsplit⟩ := List.append_of_mem hc
    refine ⟨l₁.flatten, l₂.flatten, ?_⟩
    rw [← hseg, hsplit]
    simp

/-- Witness for C1: the Hebrew word shalom followed by the waving-hand
emoji (a surrogate pair), segmented into five grapheme clusters; the
two-code-unit emoji cluster survives contiguously in the output. -/
theorem formatForTerminalSeg_graphemes_witness :
    (((fun _ => [[0x05E9], [0x05DC], [0x05D5], [0x05DD], [0xD83D, 0xDC4B]] :
        JSString → List JSString)
      [0x05E9, 0x05DC, 0x05D5, 0x05DD, 0xD83D, 0xDC4B]).flatten =
        [0x05E9, 0x05DC, 0x05D5, 0x05DD, 0xD83D, 0xDC4B]) ∧
    hasRTL [0x05E9, 0x05DC, 0x05D5, 0x05DD, 0xD83D, 0xDC4B] = true ∧
    ∃ pre post,
      formatForTerminalSeg
        (fun _ => [[0x05E9], [0x05DC], [0x05D5], [0x05DD], [0xD83D, 0xDC4B]])
        (some [0x05E9, 0x05DC, 0x05D5, 0x05DD, 0xD83D, 0xDC4B]) =
      pre ++ [0xD83D, 0xDC4B] ++ post := by
  refine ⟨by decide, by decide, ?_⟩
  have h := formatForTerminalSeg_graphemes
    (fun _ => [[0x05E9], [0x05DC], [0x05D5], [0x05DD], [0xD83D, 0xDC4B]])
    [0x05E9, 0x05DC, 0x05D5, 0x05DD, 0xD83D, 0xDC4B] (by decide) (by decide)
  exact h.2.1 [0xD83D, 0xDC4B] (by decide)

/-- The array branch of formatJsonForTerminal is List.map of the recursive
call. -/
theorem formatJsonList_eq_map (rtlFields : List String) (xs : List JValue) :
    formatJsonList rtlFields xs = xs.map (formatJsonForTerminal rtlFields) := by
  induction xs with
  | nil => simp [formatJsonList]
  | cons x xs ih => simp [formatJsonList, ih]

/-- The Object.entries loop of formatJsonForTerminal is List.map of the
per-entry body, keeping every key. -/
theorem formatJsonEntries_eq_map (rtlFields : List String)
    (fs : List (String × JValue)) :
    formatJsonEntries rtlFields fs =
      fs.map (fun kv => (kv.1, formatJsonEntry rtlFields kv.1 kv.2)) := by
  induction fs with
  | nil => simp [formatJsonEntries]
  | cons kv fs ih =>
    obtain ⟨k, v⟩ := kv
    simp [formatJsonEntries, ih]

/-- Case analysis of the per-entry body: a string value under a listed key
goes through formatForTerminal, any other string value is kept, arrays and
objects are recursed into, null is kept (it is of object type, and the
recursive call returns falsy values unchanged), and every remaining scalar
is kept. -/
theorem formatJsonEntry_cases (rtlFields : List String) (k : String)
    (v : JValue) :
    formatJsonEntry rtlFields k v =
      match v with
      | .jstr s =>
        if rtlFields.contains k then .jstr (formatForTerminal (some s))
        else .jstr s
      | .jarr xs => .jarr (xs.map (formatJsonForTerminal rtlFields))
      | .jobj gs => formatJsonForTerminal rtlFields (.jobj gs)
      | w => w := by
  cases v <;>
    simp [formatJsonEntry, jsTypeofString, jsTypeofObject,
      formatJsonForTerminal, jsFalsy, formatJsonList_eq_map]

/-- Claim C8: formatJsonForTerminal on an object returns an object over exactly
the same keys in the same order, where a string value whose key is listed
in rtlFields becomes its formatForTerminal image, every other scalar value
(string under an unlisted key, number, boolean, null, undefined) is
returned unchanged whatever its script, and nested objects and arrays are
traversed recursively with the same field list; on an array it maps the
recursion over the elements, preserving order and length. Key matching is
by exact key string only: the recursion passes the same field list at
every depth, never a path. -/
theorem formatJsonForTerminal_structure (rtlFields : List String)
    (fs : List (String × JValue)) :
    formatJsonForTerminal rtlFields (.jobj fs) =
      .jobj (fs.map fun kv =>
        (kv.1,
          match kv.2 with
          | .jstr s =>
            if rtlFields.contains kv.1 then .jstr (formatForTerminal (some s))
            else .jstr s
          | .jarr xs => .jarr (xs.map (formatJsonForTerminal rtlFields))
          | .jobj gs => formatJsonForTerminal rtlFields (.jobj gs)
          | w => w)) ∧
    (∃ fs2, formatJsonForTerminal rtlFields (.jobj fs) = .jobj fs2 ∧
      fs2.map Prod.fst = fs.map Prod.fst) ∧
    (∀ xs : List JValue,
      formatJsonForTerminal rtlFields (.jarr xs) =
        .jarr (xs.map (formatJsonForTerminal rtlFields))) := by
  have hobj : formatJsonForTerminal rtlFields (.jobj fs) =
      .jobj (fs.map (fun kv => (kv.1, formatJsonEntry rtlFields kv.1 kv.2))) := by
    simp [formatJsonForTerminal, jsFalsy, formatJsonEntries_eq_map]
  refine ⟨?_, ?_, ?_⟩
  · rw [hobj]
    congr 1
    apply List.map_congr_left
    intro kv _
    rw [formatJsonEntry_cases]
  · refine ⟨_, hobj, ?_⟩
    simp
  · intro xs
    simp [formatJsonForTerminal, jsFalsy, formatJsonList_eq_map]

/-- Claim C7: under the read-only policy getAvailableTools is exactly the
catalog filtered to the names in READ_ONLY_TOOLS, namely list_task_lists,
list_tasks and get_auth_url, in original registration order (it is a
sublist of the catalog) and a strict subset of it; with mutation allowed
it is the full catalog unchanged. -/
theorem getAvailableTools_policy_filter :
    getAvailableTools true =
      TOOL_DEFINITIONS.filter (fun tool => READ_ONLY_TOOLS.contains tool.name) ∧
    (getAvailableTools true).map ToolDefinition.name =
      ["list_task_lists", "list_tasks", "get_auth_url"] ∧
    List.Sublist (getAvailableTools true) TOOL_DEFINITIONS ∧
    (getAvailableTools true).length < TOOL_DEFINITIONS.length ∧
    getAvailableTools false = TOOL_DEFINITIONS := by
  refine ⟨rfl, by decide, ?_, by decide, rfl⟩
  have hfil : getAvailableTools true =
      TOOL_DEFINITIONS.filter (fun tool => READ_ONLY_TOOLS.contains tool.name) := rfl
  rw [hfil]
  exact List.filter_sublist TOOL_DEFINITIONS

/-- Claim C2: on the HTTP server in read-only mode, every call to a tool listed
in MUTATING_TOOLS is answered by McpError InvalidRequest whose message
quotes the tool name and says the tool is unavailable in read-only mode,
with zero initializeClient invocations and zero client actions. -/
theorem http_readOnly_rejects_mutating (authUrl : String)
    (exec : ClientAction → String) (name : String) (args : ToolArgs)
    (h : MUTATING_TOOLS.contains name = true) :
    httpDispatch authUrl exec true name args =
      { result := .mcpError .invalidRequest (readOnlyDenialMessage name),
        clientCalls := 0, actions := [] } ∧
    readOnlyDenialMessage name =
      "Tool \x27" ++ name ++
        "\x27 is not available in read-only mode. Set READ_ONLY=false to enable write operations." := by
  refine ⟨?_, rfl⟩
  have hmem : name ∈ MUTATING_TOOLS := by simpa using h
  simp [httpDispatch, hmem]

/-- Witness for C2 at the concrete tool create_task. -/
theorem http_readOnly_rejects_mutating_witness :
    MUTATING_TOOLS.contains "create_task" = true ∧
    httpDispatch "u" (fun _ => "") true "create_task" {} =
      { result := .mcpError .invalidRequest (readOnlyDenialMessage "create_task"),
        clientCalls := 0, actions := [] } :=
  ⟨by decide,
   (http_readOnly_rejects_mutating "u" (fun _ => "") "create_task" {}
      (by decide)).1⟩

/-- Claim C3 counterexample: with the policy set to read-only, the stdio server
and the HTTP server disagree on the very same create_task request (the
HTTP server rejects it without touching the client provider, the stdio
server invokes the client action), and they advertise different catalogs
(the stdio server ignores the policy and serves all seven tools, the HTTP
server three). -/
theorem transports_differ_counterexample :
    getAvailableTools true ≠ stdioToolCatalog ∧
    stdioToolCatalog.length = 7 ∧
    (getAvailableTools true).length = 3 ∧
    (httpDispatch "u" (fun _ => "ok") true "create_task"
        { taskListId := some "l", title := some "t" }) =
      { result := .mcpError .invalidRequest (readOnlyDenialMessage "create_task"),
        clientCalls := 0, actions := [] } ∧
    (stdioDispatch "u" (fun _ => "ok") "create_task"
        { taskListId := some "l", title := some "t" }) =
      { result := .success "ok", clientCalls := 1,
        actions := [.createTask (some "l") (some "t") none none] } := by
  refine ⟨by decide, by decide, by decide, by decide, by decide⟩

/-- Claim C3 amended: the two servers share the switch and the catalog, so they
behave identically whenever the policy allows mutation; only the HTTP
server is capability-gated, and under the read-only policy it rejects a
mutating call without invoking the provider while the stdio server still
forwards the same call to the client. -/
theorem transports_agree_without_policy (authUrl : String)
    (exec : ClientAction → String) (name : String) (args : ToolArgs) :
    stdioToolCatalog = TOOL_DEFINITIONS ∧
    getAvailableTools false = TOOL_DEFINITIONS ∧
    stdioDispatch authUrl exec name args =
      httpDispatch authUrl exec false name args ∧
    (MUTATING_TOOLS.contains name = true →
      (httpDispatch authUrl exec true name args).clientCalls = 0 ∧
      (stdioDispatch authUrl exec name args).clientCalls = 1) := by
  refine ⟨by decide, rfl, ?_, ?_⟩
  · simp [stdioDispatch, httpDispatch]
  · intro h
    have hget : (name == "get_auth_url") = false := by
      have : name ≠ "get_auth_url" := by
        intro he
        subst he
        simp [MUTATING_TOOLS] at h
      simp [this]
    have hmem : name ∈ MUTATING_TOOLS := by simpa using h
    refine ⟨?_, ?_⟩
    · simp [httpDispatch, hmem]
    · have hsw : ∀ r acts, runToolSwitch exec name args = (r, acts) →
          (stdioDispatch authUrl exec name args).clientCalls = 1 := by
        intro r acts hr
        simp [stdioDispatch, hget, hr]
      exact hsw _ _ rfl

/-- Witness for C3 amended at the concrete tool delete_task. -/
theorem transports_agree_without_policy_witness :
    MUTATING_TOOLS.contains "delete_task" = true ∧
    (httpDispatch "u" (fun _ => "") true "delete_task" {}).clientCalls = 0 ∧
    (stdioDispatch "u" (fun _ => "") "delete_task" {}).clientCalls = 1 := by
  have h := transports_agree_without_policy "u" (fun _ => "") "delete_task" {}
  exact ⟨by decide, (h.2.2.2 (by decide)).1, (h.2.2.2 (by decide)).2⟩

/-- Claim C4 counterexample: create_task declares title as required, yet a
create_task request without title is not rejected with any
InvalidArguments-kind error: the dispatcher (on either transport) invokes
the underlying createTask client action with title undefined and reports
success. -/
theorem required_fields_unchecked_counterexample :
    (∃ td ∈ TOOL_DEFINITIONS, td.name = "create_task" ∧
      td.required = some ["taskListId", "title"]) ∧
    httpDispatch "u" (fun _ => "ok") false "create_task"
        { taskListId := some "list1" } =
      { result := .success "ok", clientCalls := 1,
        actions := [.createTask (some "list1") none none none] } ∧
    stdioDispatch "u" (fun _ => "ok") "create_task"
        { taskListId := some "list1" } =
      { result := .success "ok", clientCalls := 1,
        actions := [.createTask (some "list1") none none none] } := by
  refine ⟨by decide, by decide, by decide⟩

/-- Claim C4 amended: neither dispatcher validates the required fields of the
input schema; every create_task and list_tasks request, whatever fields it
omits, is forwarded to the corresponding client action with each absent
field passed through as undefined, and succeeds with the serialized
response of the collaborator. -/
theorem required_fields_unchecked (authUrl : String)
    (exec : ClientAction → String) (args : ToolArgs) :
    httpDispatch authUrl exec false "create_task" args =
      { result := .success
          (exec (.createTask args.taskListId args.title args.notes args.due)),
        clientCalls := 1,
        actions := [.createTask args.taskListId args.title args.notes args.due] } ∧
    httpDispatch authUrl exec false "list_tasks" args =
      { result := .success (exec (.listTasks args.taskListId args.showCompleted)),
        clientCalls := 1,
        actions := [.listTasks args.taskListId args.showCompleted] } ∧
    stdioDispatch authUrl exec "create_task" args =
      httpDispatch authUrl exec false "create_task" args := by
  refine ⟨?_, ?_, ?_⟩
  · simp [httpDispatch, MUTATING_TOOLS, runToolSwitch]
  · simp [httpDispatch, MUTATING_TOOLS, runToolSwitch]
  · simp [stdioDispatch, httpDispatch]

/-- Claim C5 counterexample: a request with an unregistered operation name is
answered with the local MethodNotFound failure, but only after the client
provider has been invoked once — not zero times — on both servers, because
both handlers call initializeClient before the switch whose default case
raises the unknown-tool error. -/
theorem unknown_tool_invokes_provider_counterexample :
    (stdioDispatch "u" (fun _ => "") "frobnicate" {}) =
      { result := .mcpError .methodNotFound "Unknown tool: frobnicate",
        clientCalls := 1, actions := [] } ∧
    (httpDispatch "u" (fun _ => "") true "frobnicate" {}) =
      { result := .mcpError .methodNotFound "Unknown tool: frobnicate",
        clientCalls := 1, actions := [] } ∧
    ¬ (stdioDispatch "u" (fun _ => "") "frobnicate" {}).clientCalls = 0 := by
  refine ⟨by decide, by decide, by decide⟩

/-- Claim C5 amended: read-only policy denials are produced with zero provider
invocations, and unknown-operation requests produce the locally generated
MethodNotFound failure and never reach a client action — but only after
one provider invocation, on both servers and under either policy. -/
theorem failure_locality (authUrl : String) (exec : ClientAction → String)
    (name : String) (args : ToolArgs) :
    (MUTATING_TOOLS.contains name = true →
      httpDispatch authUrl exec true name args =
        { result := .mcpError .invalidRequest (readOnlyDenialMessage name),
          clientCalls := 0, actions := [] }) ∧
    (name ∉ TOOL_DEFINITIONS.map ToolDefinition.name →
      stdioDispatch authUrl exec name args =
        { result := .mcpError .methodNotFound ("Unknown tool: " ++ name),
          clientCalls := 1, actions := [] } ∧
      httpDispatch authUrl exec false name args =
        { result := .mcpError .methodNotFound ("Unknown tool: " ++ name),
          clientCalls := 1, actions := [] } ∧
      httpDispatch authUrl exec true name args =
        { result := .mcpError .methodNotFound ("Unknown tool: " ++ name),
          clientCalls := 1, actions := [] }) := by
  constructor
  · intro h
    have hmem : name ∈ MUTATING_TOOLS := by simpa using h
    simp [httpDispatch, hmem]
  · intro h
    simp [TOOL_DEFINITIONS] at h
    obtain ⟨h1, h2, h3, h4, h5, h6, h7⟩ := h
    have hmut : name ∉ MUTATING_TOOLS := by
      simp [MUTATING_TOOLS]
      exact ⟨h2, h4, h5, h6⟩
    have hsw : runToolSwitch exec name args =
        (.mcpError .methodNotFound ("Unknown tool: " ++ name), []) := by
      simp [runToolSwitch, h1, h2, h3, h4, h5, h6]
    refine ⟨?_, ?_, ?_⟩
    · simp [stdioDispatch, h7, hsw]
    · simp [httpDispatch, h7, hsw]
    · simp [httpDispatch, h7, hsw, hmut]

/-- Witness for C5 amended at the unregistered name frobnicate and the
mutating tool update_task. -/
theorem failure_locality_witness :
    ("frobnicate" ∉ TOOL_DEFINITIONS.map ToolDefinition.name ∧
      stdioDispatch "u" (fun _ => "") "frobnicate" {} =
        { result := .mcpError .methodNotFound "Unknown tool: frobnicate",
          clientCalls := 1, actions := [] }) ∧
    (MUTATING_TOOLS.contains "update_task" = true ∧
      httpDispatch "u" (fun _ => "") true "update_task" {} =
        { result := .mcpError .invalidRequest (readOnlyDenialMessage "update_task"),
          clientCalls := 0, actions := [] }) := by
  have h := failure_locality "u" (fun _ => "") "frobnicate" {}
  have h2 := failure_locality "u" (fun _ => "") "update_task" {}
  exact ⟨⟨by decide, (h.2 (by decide)).1⟩, ⟨by decide, h2.1 (by decide)⟩⟩

/-- Claim C6 counterexample: two concurrent first calls to initializeClient,
each suspended at await getAuthClient before the other stores the handle
(schedule 0,1,0,1), run the construction path twice and return two
different handles — the cache check is not an idempotency guard across the
await. -/
theorem initializeClient_race_counterexample :
    (runInitSchedule [0, 1, 0, 1] initialCacheState [.ready, .ready]).1.constructions = 2 ∧
    (runInitSchedule [0, 1, 0, 1] initialCacheState [.ready, .ready]).2 =
      [.done 0, .done 1] ∧
    ¬ (runInitSchedule [0, 1, 0, 1] initialCacheState
        [.ready, .ready]).1.constructions = 1 := by
  refine ⟨by decide, by decide, by decide⟩

/-- Once the handle is cached, no schedule ever changes the shared state
again: every later call either is still pending or finishes with the
cached handle. -/
theorem runInitSchedule_cached (sched : List Nat) (s : ClientCacheState)
    (ps : List InitPhase) (h0 : Nat) (hc : s.cache = some h0)
    (hps : ∀ p ∈ ps, p = .ready ∨ p = .done h0) :
    (runInitSchedule sched s ps).1 = s ∧
    ∀ p ∈ (runInitSchedule sched s ps).2, p = .ready ∨ p = .done h0 := by
  induction sched generalizing ps with
  | nil => exact ⟨rfl, hps⟩
  | cons i rest ih =>
    cases hgi : ps[i]? with
    | none =>
      have := ih ps hps
      simpa [runInitSchedule, hgi] using this
    | some p =>
      have hpmem : p ∈ ps := by
        have := List.getElem?_eq_some_iff.mp hgi
        obtain ⟨hlt, hget⟩ := this
        exact hget ▸ List.getElem_mem hlt
      rcases hps p hpmem with hp | hp
      · subst hp
        have hstep : initStep s .ready = (s, .done h0) := by
          simp [initStep, hc]
        have hinv : ∀ x ∈ ps.set i (.done h0), x = .ready ∨ x = .done h0 := by
          intro x hx
          rcases List.mem_or_eq_of_mem_set hx with hx | hx
          · exact hps x hx
          · exact Or.inr hx
        have := ih (ps.set i (.done h0)) hinv
        simpa [runInitSchedule, hgi, hstep] using this
      · subst hp
        have hstep : initStep s (.done h0) = (s, .done h0) := by
          simp [initStep]
        have hinv : ∀ x ∈ ps.set i (.done h0), x = .ready ∨ x = .done h0 := by
          intro x hx
          rcases List.mem_or_eq_of_mem_set hx with hx | hx
          · exact hps x hx
          · exact Or.inr hx
        have := ih (ps.set i (.done h0)) hinv
        simpa [runInitSchedule, hgi, hstep] using this

/-- Claim C6 amended: initializeClient is a lazy cache without a concurrency
guard. If the first call runs to completion before any other call starts
(schedule 0,0 on n+1 pending calls), the construction path runs exactly
once, the cache holds that single handle forever after, and under any
further schedule every call that completes observes that same handle;
interleaved first calls, however, may construct more than once (see the
race counterexample). -/
theorem initializeClient_sequential_singleton (n : Nat) (sched : List Nat) :
    ((runInitSchedule sched
        (runInitSchedule [0, 0] initialCacheState
          (List.replicate (n + 1) .ready)).1
        (runInitSchedule [0, 0] initialCacheState
          (List.replicate (n + 1) .ready)).2).1.constructions = 1) ∧
    ((runInitSchedule sched
        (runInitSchedule [0, 0] initialCacheState
          (List.replicate (n + 1) .ready)).1
        (runInitSchedule [0, 0] initialCacheState
          (List.replicate (n + 1) .ready)).2).1.cache = some 0) ∧
    ∀ p ∈ (runInitSchedule sched
        (runInitSchedule [0, 0] initialCacheState
          (List.replicate (n + 1) .ready)).1
        (runInitSchedule [0, 0] initialCacheState
          (List.replicate (n + 1) .ready)).2).2,
      p = .ready ∨ p = .done 0 := by
  have hrep : List.replicate (n + 1) InitPhase.ready =
      .ready :: List.replicate n .ready := List.replicate_succ ..
  have hstart : runInitSchedule [0, 0] initialCacheState
      (List.replicate (n + 1) .ready) =
      ({ cache := some 0, constructions := 1 },
        .done 0 :: List.replicate n .ready) := by
    rw [hrep]
    simp [runInitSchedule, initStep, initialCacheState]
  have hinv : ∀ p ∈ (InitPhase.done 0 :: List.replicate n .ready),
      p = .ready ∨ p = .done 0 := by
    intro p hp
    rcases List.mem_cons.mp hp with hp | hp
    · exact Or.inr hp
    · exact Or.inl (List.eq_of_mem_replicate hp)
  have h := runInitSchedule_cached sched
    { cache := some 0, constructions := 1 }
    (.done 0 :: List.replicate n .ready) 0 rfl hinv
  rw [hstart]
  exact ⟨by rw [h.1], by rw [h.1], h.2⟩

end MCPGoogleTasks
